import Mathlib

/-!
Verification development for the EZID identifier-registry backend.

This file is a shallow embedding, in Lean 4, of the components of the
EZID source that the specification's claims concern:

* `impl/datacite.py` — the DataCite metadata-registry client
  (`registerIdentifier`, `getTargetUrl`, `uploadMetadata`, `_deactivate`,
  `deactivate`, `validateDcmsRecord`, `upgradeDcmsRecord`);
* `impl/backproc.py` — the background queue-drain daemon
  (`_backprocDaemon`, `_updateSearchDatabase`).

Network I/O is modelled by an environment function `Nat → Response`
giving the response of each successive HTTP attempt; the lxml element
tree is modelled by the inductive type `Element`.  Python 3 semantics
are preserved where they matter: an HTTP response body read with
`read()` is a `bytes` value, and the embedding keeps the `bytes`/`str`
distinction (`PyStr`) because comparisons and `startswith` between the
two kinds behave differently (`==` is `False`, `startswith` raises
`TypeError`).
-/

namespace Ezid

/-- A Python string value: either a `bytes` object or a `str` object.
In Python 3 `bytes` and `str` never compare equal under `==`. -/
inductive PyStr where
  | bytes (s : String)
  | str (s : String)
deriving DecidableEq, Repr

/-- Python `==` between two string-like values: `bytes` and `str`
never compare equal. -/
def pyEq : PyStr → PyStr → Bool
  | .bytes a, .bytes b => a == b
  | .str a, .str b => a == b
  | _, _ => false

/-- Python `a.startswith(b)`.  Mixing `bytes` and `str` raises
`TypeError`, modelled as `none`. -/
def pyStartswith : PyStr → PyStr → Option Bool
  | .bytes a, .bytes b => some (b.data.isPrefixOf a.data)
  | .str a, .str b => some (b.data.isPrefixOf a.data)
  | _, _ => none

/-- Python `message.decode("utf-8")` on a response body.  The bodies in
this model carry their character content directly. -/
def pyDecode : PyStr → String
  | .bytes s => s
  | .str s => s

/-- Outcome of one HTTP attempt (`opener.open(...)` plus, on success,
`read()`).  `ok` is a 2xx response (the `_HTTPErrorProcessor` passes
201 through like any success); `httpError` is an
`urllib.error.HTTPError` with status code and body (`e.fp.read()`);
`transport` is any other exception raised by the attempt. -/
inductive Response where
  | ok (status : Nat) (body : PyStr)
  | httpError (code : Nat) (body : PyStr)
  | transport
deriving DecidableEq, Repr

/-- An exception escaping one of the client functions. -/
inductive Exc where
  | httpError (code : Nat) (body : PyStr)
  | assertionError (msg : String)
  | typeError
  | transport
deriving DecidableEq, Repr

/-- Result of a Python call: a returned value or a raised exception. -/
inductive Outcome (α : Type) where
  | ret (v : α)
  | raise (e : Exc)
deriving DecidableEq, Repr

/-! ### `impl/datacite.py` — `registerIdentifier` (lines 145–195)

The retry loop `for i in range(_numAttempts)` is embedded with the
remaining-attempt count as structural fuel; attempt `i` is the last one
when the fuel is 1.  The second component of the result counts the
HTTP attempts actually made. -/

/-- One pass of `registerIdentifier`'s retry loop, starting at attempt
index `i` with `fuel` attempts remaining.  Each attempt:
success body equal (as Python `==`) to the `str` `"OK"` breaks out and
the function returns `None`; otherwise the `assert` fails.  An
`HTTPError` with code 400 whose body starts with `b"[url]"` is
returned as a validation message; any other `HTTPError` is re-raised
unless the code is 500 and attempts remain; any other exception is
re-raised only on the last attempt. -/
def registerGo (resp : Nat → Response) (i : Nat) : Nat → Outcome (Option PyStr) × Nat
  | 0 => (.ret none, i)
  | fuel + 1 =>
    let isLast := fuel == 0
    match resp i with
    | .ok _ body =>
      if pyEq body (.str "OK") then (.ret none, i + 1)
      else if isLast then
        (.raise (.assertionError "unexpected return from DataCite register DOI operation"), i + 1)
      else registerGo resp (i + 1) fuel
    | .httpError code body =>
      if code == 400 then
        match pyStartswith body (.bytes "[url]") with
        | none => (.raise .typeError, i + 1)
        | some true => (.ret (some body), i + 1)
        | some false => (.raise (.httpError code body), i + 1)
      else if code != 500 || isLast then (.raise (.httpError code body), i + 1)
      else registerGo resp (i + 1) fuel
    | .transport =>
      if isLast then (.raise .transport, i + 1)
      else registerGo resp (i + 1) fuel

/-- The function `registerIdentifier(doi, targetUrl, datacenter)` from
`impl/datacite.py`.  Returns the Python return value (None on success,
a message if DataCite rejected the target URL) or the raised
exception, paired with the number of HTTP attempts made.  The request
construction (URL, auth header, body) carries no control flow and is
not modelled. -/
def registerIdentifier (enabled : Bool) (numAttempts : Nat) (resp : Nat → Response) :
    Outcome (Option PyStr) × Nat :=
  if !enabled then (.ret none, 0)
  else registerGo resp 0 numAttempts

/-! ### `impl/datacite.py` — `getTargetUrl` (lines 210–248) -/

/-- One pass of `getTargetUrl`'s retry loop.  A success returns the
body; a 404 returns `None`; any other `HTTPError` is re-raised unless
the code is 500 and attempts remain; any other exception is re-raised
only on the last attempt.  (`getTargetUrl` has no `_enabled` check.) -/
def getTargetGo (resp : Nat → Response) (i : Nat) : Nat → Outcome (Option PyStr) × Nat
  | 0 => (.ret none, i)
  | fuel + 1 =>
    let isLast := fuel == 0
    match resp i with
    | .ok _ body => (.ret (some body), i + 1)
    | .httpError code body =>
      if code == 404 then (.ret none, i + 1)
      else if code != 500 || isLast then (.raise (.httpError code body), i + 1)
      else getTargetGo resp (i + 1) fuel
    | .transport =>
      if isLast then (.raise .transport, i + 1)
      else getTargetGo resp (i + 1) fuel

/-- The function `getTargetUrl(doi, datacenter)` from `impl/datacite.py`. -/
def getTargetUrl (numAttempts : Nat) (resp : Nat → Response) : Outcome (Option PyStr) × Nat :=
  getTargetGo resp 0 numAttempts

/-! ### `impl/datacite.py` — `uploadMetadata` (lines 483–551) -/

/-- Identifier metadata: a Python dict of element names to values. -/
abbrev Metadata : Type := List (String × String)

/-- Python `m = current.copy(); m.update(delta)`: keys of `delta`
override those of `current`, new keys are appended. -/
def dictUpdate (current delta : Metadata) : Metadata :=
  (current.map fun p =>
    match delta.lookup p.1 with
    | some v => (p.1, v)
    | none => p) ++
  delta.filter fun q => (current.lookup q.1).isNone

/-- One pass of `uploadMetadata`'s retry loop.  On a success response
the code runs `s = c.read(); assert s.startswith("OK")`: `s` is
`bytes`, so `startswith` with a `str` argument raises `TypeError`,
which falls into the generic `except Exception` handler.  An
`HTTPError` with code 400 or 422 returns a validation message built
from the decoded body; other codes follow the usual 500-retry rule. -/
def uploadGo (resp : Nat → Response) (i : Nat) : Nat → Outcome (Option String) × Nat
  | 0 => (.ret none, i)
  | fuel + 1 =>
    let isLast := fuel == 0
    match resp i with
    | .ok _ body =>
      match pyStartswith body (.str "OK") with
      | none =>
        if isLast then (.raise .typeError, i + 1)
        else uploadGo resp (i + 1) fuel
      | some true => (.ret none, i + 1)
      | some false =>
        if isLast then
          (.raise (.assertionError "unexpected return from DataCite store metadata operation"),
            i + 1)
        else uploadGo resp (i + 1) fuel
    | .httpError code body =>
      if code == 400 || code == 422 then
        (.ret (some ("element 'datacite': " ++ pyDecode body)), i + 1)
      else if code != 500 || isLast then (.raise (.httpError code body), i + 1)
      else uploadGo resp (i + 1) fuel
    | .transport =>
      if isLast then (.raise .transport, i + 1)
      else uploadGo resp (i + 1) fuel

/-- The function `uploadMetadata(doi, current, delta, forceUpload, datacenter)` from
`impl/datacite.py`.  `formRec` stands for `formRecord("doi:" + doi, ·)`;
`formRecord` delegates the field mapping to the external
`impl.mapping` collaborator (not part of the analysed sources), so the
record builder is passed as a function, with `none` standing for the
`AssertionError` it raises on missing required metadata.  The old
record is formed from `current` (an `AssertionError` leaves it
`None`), the new record from `current` updated with `delta` (an
`AssertionError` here returns a requirements message); if the new
record equals the old one and `forceUpload` is false the network is
not touched. -/
def uploadMetadata (enabled : Bool) (formRec : Metadata → Option String)
    (current delta : Metadata) (forceUpload : Bool) (numAttempts : Nat)
    (resp : Nat → Response) : Outcome (Option String) × Nat :=
  let oldRecord := formRec current
  match formRec (dictUpdate current delta) with
  | none => (.ret (some "DOI metadata requirements not satisfied"), 0)
  | some newRecord =>
    if some newRecord == oldRecord && !forceUpload then (.ret none, 0)
    else if !enabled then (.ret none, 0)
    else uploadGo resp 0 numAttempts

/-! ### `impl/datacite.py` — `_deactivate` (554–588) and `deactivate` (591–629) -/

/-- One pass of `_deactivate`'s retry loop.  The DELETE request's
success body is compared (`==`) with the `str` `"OK"`; the body is
`bytes`, so the comparison is `False` and the `assert` fails.  An
`HTTPError` is re-raised unless the code is 500 and attempts remain. -/
def deactivateGo (resp : Nat → Response) (i : Nat) : Nat → Outcome Unit × Nat
  | 0 => (.ret (), i)
  | fuel + 1 =>
    let isLast := fuel == 0
    match resp i with
    | .ok _ body =>
      if pyEq body (.str "OK") then (.ret (), i + 1)
      else if isLast then
        (.raise (.assertionError "unexpected return from DataCite deactivate DOI operation"),
          i + 1)
      else deactivateGo resp (i + 1) fuel
    | .httpError code body =>
      if code != 500 || isLast then (.raise (.httpError code body), i + 1)
      else deactivateGo resp (i + 1) fuel
    | .transport =>
      if isLast then (.raise .transport, i + 1)
      else deactivateGo resp (i + 1) fuel

/-- The function `_deactivate(doi, datacenter)` from `impl/datacite.py`. -/
def deactivateRequest (numAttempts : Nat) (resp : Nat → Response) : Outcome Unit × Nat :=
  deactivateGo resp 0 numAttempts

/-- The fixed placeholder metadata `deactivate` uploads when the
DELETE request reports 404 (`impl/datacite.py` lines 612–622). -/
def inactiveDelta : Metadata :=
  [("datacite.title", "inactive"), ("datacite.creator", "inactive"),
   ("datacite.publisher", "inactive"), ("datacite.publicationyear", "0000")]

/-- Observable behaviour of one `deactivate` call: its outcome, how
many times `_deactivate` was invoked, and whether the placeholder
upload was attempted. -/
structure DeactResult where
  outcome : Outcome Unit
  deactivateCalls : Nat
  uploadAttempted : Bool
deriving DecidableEq, Repr

/-- The function `deactivate(doi, datacenter)` from `impl/datacite.py`.  Here `respDel1`,
`respUpload` and `respDel2` give the HTTP responses seen by the first
`_deactivate`, the bootstrap `uploadMetadata`, and the retried
`_deactivate` respectively.  On a 404 from the first `_deactivate` the
placeholder metadata is uploaded; `assert message is None` must pass
before `_deactivate` is retried.  Any other `HTTPError` (and any
non-`HTTPError` exception) propagates. -/
def deactivate (enabled : Bool) (formRec : Metadata → Option String) (numAttempts : Nat)
    (respDel1 respUpload respDel2 : Nat → Response) : DeactResult :=
  if !enabled then ⟨.ret (), 0, false⟩
  else
    match (deactivateRequest numAttempts respDel1).1 with
    | .ret _ => ⟨.ret (), 1, false⟩
    | .raise e =>
      match e with
      | .httpError code body =>
        if code == 404 then
          match (uploadMetadata enabled formRec [] inactiveDelta false numAttempts respUpload).1 with
          | .ret none =>
            match (deactivateRequest numAttempts respDel2).1 with
            | .ret _ => ⟨.ret (), 2, true⟩
            | .raise e2 => ⟨.raise e2, 2, true⟩
          | .ret (some m) =>
            ⟨.raise (.assertionError
              ("unexpected return from DataCite store metadata operation: " ++ m)), 1, true⟩
          | .raise e2 => ⟨.raise e2, 1, true⟩
        else ⟨.raise (.httpError code body), 1, false⟩
      | e => ⟨.raise e, 1, false⟩

/-! ### The lxml element-tree model

A DataCite kernel record after lxml parsing.  `ns` is the kernel
version string extracted from the element's namespace
(`{http://datacite.org/schema/kernel-<ns>}<name>`); `attrib` is the
attribute dictionary in insertion order; `text` is the element's text
node (`None` when absent); `children` are the sub-elements in document
order.  Comment nodes are not modelled. -/
inductive Element where
  | mk (ns : String) (name : String) (attrib : List (String × String))
      (text : Option String) (children : List Element)

/-- The kernel version of the element's namespace. -/
@[simp] def Element.ns : Element → String
  | .mk n _ _ _ _ => n

/-- The element's local tag name. -/
@[simp] def Element.name : Element → String
  | .mk _ n _ _ _ => n

/-- The element's attribute dictionary. -/
@[simp] def Element.attrib : Element → List (String × String)
  | .mk _ _ a _ _ => a

/-- The element's text node. -/
@[simp] def Element.text : Element → Option String
  | .mk _ _ _ t _ => t

/-- The element's sub-elements in document order. -/
@[simp] def Element.children : Element → List Element
  | .mk _ _ _ _ c => c

/-- Attribute lookup, `e.attrib.get(k)`. -/
def getAttr (e : Element) (k : String) : Option String :=
  e.attrib.lookup k

/-- Python `attrib[k] = v` on an lxml attribute dictionary: an existing
key keeps its position, a new key is appended. -/
def setAttr (attrib : List (String × String)) (k v : String) : List (String × String) :=
  if attrib.any fun p => p.1 == k then
    attrib.map fun p => if p.1 == k then (k, v) else p
  else attrib ++ [(k, v)]

/-- Python `e.attrib[k] = v` on an element. -/
def Element.setAttrib (e : Element) (k v : String) : Element :=
  .mk e.ns e.name (setAttr e.attrib k v) e.text e.children

/-- Python `lxml.etree.SubElement(e, ...)`: append a child at the end. -/
def Element.appendChild (e c : Element) : Element :=
  .mk e.ns e.name e.attrib e.text (e.children ++ [c])

/-- Helper for `splitPy`: walk the characters, accumulating the
current (reversed) token. -/
def splitPyAux : List Char → List Char → List String
  | [], acc => if acc.isEmpty then [] else [String.mk acc.reverse]
  | c :: cs, acc =>
    if c.isWhitespace then
      (if acc.isEmpty then [] else [String.mk acc.reverse]) ++ splitPyAux cs []
    else splitPyAux cs (c :: acc)

/-- Python `s.split()` with no separator: split on whitespace runs,
discarding empty pieces. -/
def splitPy (s : String) : List String :=
  splitPyAux s.data []

/-! ### `impl/datacite.py` — `upgradeDcmsRecord` (lines 721–822)

Each structural fix of the version-2.x → version-4 migration is one
function below; `upgradeDcmsRecord` composes them in the source's
order.  The xpath `//`-searches of the source take a snapshot of the
matching elements and then mutate the tree; the recursive functions
below visit the tree in the same document order. -/

/-! The changeNamespace helper (lines 752–758): rewrite every element's
namespace to the current kernel version, parent before children. -/
mutual
def changeNamespace : Element → Element
  | .mk _ name attrib text children => .mk "4" name attrib text (changeNamespaceL children)
def changeNamespaceL : List Element → List Element
  | [] => []
  | c :: rest => changeNamespace c :: changeNamespaceL rest
end

/-! Number of elements (descendant-or-self) with the given namespace
version and tag, as counted by an xpath descendant search. -/
mutual
def countTag (nsv nm : String) : Element → Nat
  | .mk ens enm _ _ cs => (if ens == nsv && enm == nm then 1 else 0) + countTagL nsv nm cs
def countTagL (nsv nm : String) : List Element → Nat
  | [] => 0
  | c :: rest => countTag nsv nm c + countTagL nsv nm rest
end

/-! The Film-to-Audiovisual rename (lines 765–766), applied to every
`resourceType` element; `upgradeDcmsRecord` only calls it when exactly
one such element exists.  A `resourceType` element without the
`resourceTypeGeneral` attribute raises `KeyError`. -/
mutual
def filmFix : Element → Except String Element
  | .mk ens enm attrib text cs => do
    let cs2 ← filmFixL cs
    if ens == "4" && enm == "resourceType" then
      match attrib.lookup "resourceTypeGeneral" with
      | none => throw "KeyError: resourceTypeGeneral"
      | some g =>
        if g == "Film" then
          pure (.mk ens enm (setAttr attrib "resourceTypeGeneral" "Audiovisual") text cs2)
        else pure (.mk ens enm attrib text cs2)
    else pure (.mk ens enm attrib text cs2)
def filmFixL : List Element → Except String (List Element)
  | [] => pure []
  | c :: rest => do pure ((← filmFix c) :: (← filmFixL rest))
end

/-- The resource-type step (lines 762–770): at most one `resourceType`
element may exist (`assert len(e) <= 1`); if one exists the Film
rename applies to it, otherwise a default `Other`/`(:unav)` element is
appended to the root. -/
def fixResourceType (root : Element) : Except String Element :=
  let n := countTag "4" "resourceType" root
  if 2 ≤ n then throw "assert len(e) <= 1"
  else if n == 1 then filmFix root
  else
    pure (root.appendChild
      (.mk "4" "resourceType" [("resourceTypeGeneral", "Other")] (some "(:unav)") []))

/-! The date step, first loop (lines 773–775): delete every `date`
element typed `StartDate` or `EndDate`; a `date` element without the
`dateType` attribute raises `KeyError`. -/
mutual
def removeStartEndDates : Element → Except String Element
  | .mk ens enm attrib text cs => do
    pure (.mk ens enm attrib text (← removeStartEndDatesL cs))
def removeStartEndDatesL : List Element → Except String (List Element)
  | [] => pure []
  | c :: rest =>
    if c.ns == "4" && c.name == "date" then
      match getAttr c "dateType" with
      | none => throw "KeyError: dateType"
      | some t =>
        if t == "StartDate" || t == "EndDate" then removeStartEndDatesL rest
        else do pure ((← removeStartEndDates c) :: (← removeStartEndDatesL rest))
    else do pure ((← removeStartEndDates c) :: (← removeStartEndDatesL rest))
end

/-! The emptied-container removal loops (lines 776–778 for `dates`,
791–793 for `contributors`): drop every element with the given name
that has no children, ancestors tested before their descendants, as
the xpath document-order iteration does. -/
mutual
def removeEmptyContainers (nm : String) : Element → Element
  | .mk ens enm attrib text cs => .mk ens enm attrib text (removeEmptyContainersL nm cs)
def removeEmptyContainersL (nm : String) : List Element → List Element
  | [] => []
  | c :: rest =>
    if c.ns == "4" && c.name == nm && c.children.isEmpty then removeEmptyContainersL nm rest
    else removeEmptyContainers nm c :: removeEmptyContainersL nm rest
end

/-- A contributor of the removed `Funder` type (line 780). -/
def isFunderContributor (e : Element) : Bool :=
  e.ns == "4" && e.name == "contributor" && getAttr e "contributorType" == some "Funder"

/-- The `fundingReference` entries generated from one funder
contributor (lines 786–789): one per `contributorName` child, carrying
the name's text as the funder name. -/
def funderRefs (e : Element) : List Element :=
  (e.children.filter fun n => n.ns == "4" && n.name == "contributorName").map fun n =>
    Element.mk "4" "fundingReference" [] none [Element.mk "4" "funderName" [] n.text []]

/-! All funder contributors in document order (the xpath snapshot of
line 780). -/
mutual
def collectFunders : Element → List Element
  | .mk ens enm attrib text cs =>
    (if isFunderContributor (.mk ens enm attrib text cs) then [Element.mk ens enm attrib text cs]
     else []) ++ collectFundersL cs
def collectFundersL : List Element → List Element
  | [] => []
  | c :: rest => collectFunders c ++ collectFundersL rest
end

/-! Append the generated funding references to the first
`fundingReferences` element in document order; the flag reports
whether one was found (lines 781–785). -/
mutual
def appendToFR (refs : List Element) : Element → Element × Bool
  | .mk ens enm attrib text cs =>
    if ens == "4" && enm == "fundingReferences" then (.mk ens enm attrib text (cs ++ refs), true)
    else
      let r := appendToFRL refs cs
      (.mk ens enm attrib text r.1, r.2)
def appendToFRL (refs : List Element) : List Element → List Element × Bool
  | [] => ([], false)
  | c :: rest =>
    let r := appendToFR refs c
    if r.2 then (r.1 :: rest, true)
    else
      let r2 := appendToFRL refs rest
      (c :: r2.1, r2.2)
end

/-! Remove every funder contributor from the tree (line 790). -/
mutual
def removeFunders : Element → Element
  | .mk ens enm attrib text cs => .mk ens enm attrib text (removeFundersL cs)
def removeFundersL : List Element → List Element
  | [] => []
  | c :: rest =>
    if isFunderContributor c then removeFundersL rest
    else removeFunders c :: removeFundersL rest
end

/-- The funder-contributor step (lines 780–790): convert each funder
contributor's names into funding references — appended to the existing
`fundingReferences` container if any, else to a new one appended to
the root — and remove the contributor elements. -/
def fixFunders (root : Element) : Element :=
  let funders := collectFunders root
  if funders.isEmpty then root
  else
    let refs := (funders.map funderRefs).flatten
    let root2 := removeFunders root
    let r := appendToFR refs root2
    if r.2 then r.1
    else root2.appendChild (Element.mk "4" "fundingReferences" [] none refs)

/-- A geolocation point with shorthand text and no sub-elements
(line 795–796). -/
def isChildlessPoint (e : Element) : Bool :=
  e.ns == "4" && e.name == "geoLocationPoint" && e.children.isEmpty

/-- The migrated form of a two-coordinate point (lines 798–801): a
`pointLongitude` sub-element holding the second coordinate followed by
a `pointLatitude` sub-element holding the first, with the shorthand
text cleared. -/
def rewritePoint (e : Element) (lat lon : String) : Element :=
  .mk e.ns e.name e.attrib none
    [.mk "4" "pointLongitude" [] (some lon) [], .mk "4" "pointLatitude" [] (some lat) []]

/-! The geolocation-point step (lines 795–804): every childless
`geoLocationPoint` whose text splits into exactly two
whitespace-separated values is rewritten by `rewritePoint`; one with
any other number of values is removed.  A childless point with no text
raises `AttributeError` (`None.split()`). -/
mutual
def fixGeoPoints : Element → Except String Element
  | .mk ens enm attrib text cs => do
    pure (.mk ens enm attrib text (← fixGeoPointsL cs))
def fixGeoPointsL : List Element → Except String (List Element)
  | [] => pure []
  | c :: rest =>
    if isChildlessPoint c then
      match c.text with
      | none => throw "AttributeError: NoneType object has no attribute split"
      | some t =>
        match splitPy t with
        | [lat, lon] => do pure (rewritePoint c lat lon :: (← fixGeoPointsL rest))
        | _ => fixGeoPointsL rest
    else do pure ((← fixGeoPoints c) :: (← fixGeoPointsL rest))
end

/-- A geolocation box with shorthand text and no sub-elements
(lines 805–806). -/
def isChildlessBox (e : Element) : Bool :=
  e.ns == "4" && e.name == "geoLocationBox" && e.children.isEmpty

/-- The migrated form of a four-coordinate box (lines 808–813). -/
def rewriteBox (e : Element) (c0 c1 c2 c3 : String) : Element :=
  .mk e.ns e.name e.attrib none
    [.mk "4" "westBoundLongitude" [] (some c1) [],
     .mk "4" "eastBoundLongitude" [] (some c3) [],
     .mk "4" "southBoundLatitude" [] (some c0) [],
     .mk "4" "northBoundLatitude" [] (some c2) []]

/-! The geolocation-box step (lines 805–816): a childless
`geoLocationBox` whose text splits into exactly four values is
rewritten by `rewriteBox`; any other coordinate count removes it. -/
mutual
def fixGeoBoxes : Element → Except String Element
  | .mk ens enm attrib text cs => do
    pure (.mk ens enm attrib text (← fixGeoBoxesL cs))
def fixGeoBoxesL : List Element → Except String (List Element)
  | [] => pure []
  | c :: rest =>
    if isChildlessBox c then
      match c.text with
      | none => throw "AttributeError: NoneType object has no attribute split"
      | some t =>
        match splitPy t with
        | [c0, c1, c2, c3] => do pure (rewriteBox c c0 c1 c2 c3 :: (← fixGeoBoxesL rest))
        | _ => fixGeoBoxesL rest
    else do pure ((← fixGeoBoxes c) :: (← fixGeoBoxesL rest))
end

/-- The `xsi:schemaLocation` attribute key. -/
def xsiSchemaLocation : String := "{http://www.w3.org/2001/XMLSchema-instance}schemaLocation"

/-- The schema location value written by `upgradeDcmsRecord`
(lines 737–740). -/
def kernel4SchemaLocation : String :=
  "http://datacite.org/schema/kernel-4 http://schema.datacite.org/meta/kernel-4/metadata.xsd"

/-- The function `upgradeDcmsRecord(record, parseString=False, returnString=False)`
from `impl/datacite.py` (lines 721–822): set the current
`xsi:schemaLocation`, return unchanged if the record is already at
version 4, and otherwise apply the namespace rewrite and the
structural fixes in source order.  A root whose tag is not a kernel
`resource` makes `_schemaVersionRE` fail to match, so `m.group(1)`
raises `AttributeError`.  `lxml.etree.cleanup_namespaces` only drops
unused namespace declarations, which this model does not represent, so
it is the identity here. -/
def upgradeDcmsRecord (root : Element) : Except String Element := do
  let root := root.setAttrib xsiSchemaLocation kernel4SchemaLocation
  if root.name ≠ "resource" then
    throw "AttributeError: root tag is not a DataCite kernel resource"
  if root.ns == "4" then pure root
  else do
    let root := changeNamespace root
    let root ← fixResourceType root
    let root ← removeStartEndDates root
    let root := removeEmptyContainers "dates" root
    let root := fixFunders root
    let root := removeEmptyContainers "contributors" root
    let root ← fixGeoPoints root
    let root ← fixGeoBoxes root
    pure root

/-! ### `impl/datacite.py` — `validateDcmsRecord` (lines 259–363)

The embedding starts from the parsed root element: the prolog
normalization and the well-formedness parse (lines 274–291) operate on
the raw string and are performed by lxml, outside the analysed control
flow.  The per-version schema validator is external (an
`lxml.etree.XMLSchema` object), so it is passed as the predicate
`schemaOk`; `schemas` is the set of version strings loaded from the
schema directory. -/

/-- The identifier type derived from the identifier's scheme prefix
and the scheme-less body (lines 308–318); `none` is the
"unrecognized identifier scheme" assertion failure. -/
def schemeType (identifier : String) : Option (String × String) :=
  if "doi:".data.isPrefixOf identifier.data then
    some ("DOI", String.mk (identifier.data.drop 4))
  else if "ark:/".data.isPrefixOf identifier.data then
    some ("ARK", String.mk (identifier.data.drop 5))
  else if "uuid:".data.isPrefixOf identifier.data then
    some ("UUID", String.mk (identifier.data.drop 5))
  else none

/-- A child selected by the xpath `N:identifier` search (line 303). -/
def isIdentifierChild (version : String) (c : Element) : Bool :=
  c.ns == version && c.name == "identifier"

/-- Set the identifier children's `identifierType` attribute and text
(the record has exactly one such child when this is used). -/
def setIdentifier (root : Element) (version idType idText : String) : Element :=
  .mk root.ns root.name root.attrib root.text
    (root.children.map fun c =>
      if isIdentifierChild version c then
        .mk c.ns c.name (setAttr c.attrib "identifierType" idType) (some idText) c.children
      else c)

/-- The `schemaLocation` value written by `validateDcmsRecord`
(lines 350–355).  In the source the two adjacent string literals
concatenate before `.format` applies, so the `%s` placeholder survives
verbatim and only the `{}` is replaced by the version. -/
def validateSchemaLocation (version : String) : String :=
  "http://datacite.org/schema/kernel-%s http://schema.datacite.org/meta/kernel-" ++ version
    ++ "/metadata.xsd"

/-- The function `validateDcmsRecord(identifier, record, schemaValidate)` from
`impl/datacite.py`, from the parsed root onwards (lines 292–363):
extract the version from the root tag; upgrade deprecated versions
2.1/2.2 and re-extract; look up the schema; require exactly one
`identifier` child carrying an `identifierType` attribute; require the
declared type to match the type derived from the identifier's scheme;
optionally schema-validate with an innocuous substitute identifier;
finally install the true identifier and the `schemaLocation`
attribute.  Failures are the source's assertion messages. -/
def validateDcmsRecord (schemas : List String) (schemaOk : String → Element → Bool)
    (identifier : String) (root : Element) (schemaValidate : Bool) : Except String Element := do
  if root.name ≠ "resource" then throw "not a DataCite record"
  let root ← if root.ns == "2.1" || root.ns == "2.2" then upgradeDcmsRecord root else pure root
  if root.name ≠ "resource" then
    throw "AttributeError: root tag is not a DataCite kernel resource"
  let version := root.ns
  if !schemas.contains version then throw "unsupported DataCite record version"
  match root.children.filter (isIdentifierChild version) with
  | [i] =>
    match getAttr i "identifierType" with
    | none => throw "malformed DataCite record: no <identifier> element"
    | some declType =>
      match schemeType identifier with
      | none => throw "unrecognized identifier scheme"
      | some (idType, idBody) =>
        if declType ≠ idType then
          throw "mismatch between identifier type and <identifier> element"
        else do
          if schemaValidate && !schemaOk version (setIdentifier root version "DOI" "10.1234/X") then
            throw "SchemaViolation"
          pure ((setIdentifier root version idType idBody).setAttrib xsiSchemaLocation
            (validateSchemaLocation version))
  | _ => throw "malformed DataCite record: no <identifier> element"

/-! ### `impl/backproc.py` — the queue-drain daemon

Per-entry processing (`_backprocDaemon`, lines 108–150) is embedded as
a function from an update-queue entry and the outcome of the
search-index step to the list of effects performed for that entry.
Effects performed inside `django.db.transaction.atomic()` are grouped
under a single `Effect.atomicTxn` constructor. -/

/-- A queue entry's operation (`update_model.get_operation_display()`). -/
inductive Op where
  | create
  | update
  | delete
deriving DecidableEq, Repr

/-- The display string of an operation. -/
def opDisplay : Op → String
  | .create => "create"
  | .update => "update"
  | .delete => "delete"

/-- The fields of the owning identifier record
(`update_model.actualObject`) that `_backprocDaemon` consults. -/
structure IdRecord where
  owner : Option String
  isReserved : Bool
  isTest : Bool
  isDatacite : Bool
  isCrossref : Bool
deriving DecidableEq, Repr

/-- An `UpdateQueue` row as seen by `_backprocDaemon`. -/
structure UpdateModel where
  seq : Nat
  identifier : String
  operation : Op
  updateExternalServices : Bool
  actualObject : IdRecord
deriving DecidableEq, Repr

/-- An operation performed inside the per-entry atomic transaction. -/
inductive TxnOp where
  | binderEnqueue (identifier operation : String)
  | dataciteEnqueue (identifier operation : String)
  | crossrefEnqueue (identifier operation : String)
  | deleteEntry (seq : Nat)
deriving DecidableEq, Repr

/-- True when the operation is a hand-off to an external service's worker queue. -/
def TxnOp.isEnqueue : TxnOp → Bool
  | .deleteEntry _ => false
  | _ => true

/-- An observable effect of processing one queue entry. -/
inductive Effect where
  | searchUpsert (identifier : String)
  | searchDelete (identifier : String)
  | atomicTxn (ops : List TxnOp)
deriving DecidableEq, Repr

/-- The function `_updateSearchDatabase(identifier, operation, metadata, blob)`
(`impl/backproc.py` lines 49–57): create/update upserts the search
document, delete removes it. -/
def updateSearchDatabase (u : UpdateModel) : Effect :=
  match u.operation with
  | .create => .searchUpsert u.identifier
  | .update => .searchUpsert u.identifier
  | .delete => .searchDelete u.identifier

/-- The body of the per-entry `with django.db.transaction.atomic()`
block (`impl/backproc.py` lines 128–150): unless the identifier is
reserved, enqueue the binder registration and, when
`updateExternalServices` is set, either a DataCite push (non-test
DataCite identifiers) or a Crossref push; in every case delete the
queue entry. -/
def entryTxnOps (u : UpdateModel) : List TxnOp :=
  (if !u.actualObject.isReserved then
    .binderEnqueue u.identifier (opDisplay u.operation) ::
    (if u.updateExternalServices then
      (if u.actualObject.isDatacite then
        (if !u.actualObject.isTest then
          [.dataciteEnqueue u.identifier (opDisplay u.operation)]
        else [])
      else if u.actualObject.isCrossref then
        [.crossrefEnqueue u.identifier (opDisplay u.operation)]
      else [])
    else [])
  else []) ++ [.deleteEntry u.seq]

/-- Outcome of the `impl.search_util.withAutoReconnect` wrapper around
`_updateSearchDatabase`: it either completes or raises
`AbortException` (which breaks out of the batch). -/
inductive SearchResult where
  | ok
  | abort
deriving DecidableEq, Repr

/-- Processing of one queue entry in `_backprocDaemon`'s regular loop
(`impl/backproc.py` lines 108–150).  The search-index step runs only
when the identifier record's owner is non-null; an `AbortException`
from it breaks out before the transaction, leaving the entry in the
queue.  Otherwise the atomic transaction (enqueues plus entry
deletion) runs. -/
def processEntry (u : UpdateModel) (search : SearchResult) : List Effect :=
  match u.actualObject.owner with
  | some _ =>
    match search with
    | .ok => [updateSearchDatabase u, .atomicTxn (entryTxnOps u)]
    | .abort => []
  | none => [.atomicTxn (entryTxnOps u)]

/-! ### `impl/backproc.py` — the generation-handoff wait (lines 79–98)

After registering its thread name in `_runningThreads`, a new daemon
generation polls until it is the only one registered, accumulating
`_idleSleep` per poll into `totalWaitTime`; the
`assert totalWaitTime <= 60` fires once the accumulated wait exceeds
60, the resulting `AssertionError` is caught by the surrounding
`except AssertionError` handler, logged via `impl.log.otherError`, and
the daemon continues into its regular processing loop. -/

/-- The wait loop, parameterised by the per-poll state:
`checkCont k` is `_checkContinue()` and `othersPresent k` is
`len(_runningThreads) != 1` at poll `k`; `t` is `totalWaitTime`.
Returns the final `totalWaitTime` and whether the assertion fired. -/
def waitLoop (idleSleep : Nat) (hpos : 0 < idleSleep) (checkCont othersPresent : Nat → Bool)
    (k t : Nat) : Nat × Bool :=
  if !checkCont k then (t, false)
  else if !othersPresent k then (t, false)
  else if t ≤ 60 then waitLoop idleSleep hpos checkCont othersPresent (k + 1) (t + idleSleep)
  else (t, true)
termination_by 61 - t
decreasing_by omega

/-- Observable outcome of the daemon's startup phase. -/
structure StartupResult where
  totalWaitTime : Nat
  errorLogged : Bool
  proceedsToProcessing : Bool
deriving DecidableEq, Repr

/-- The startup phase of `_backprocDaemon` (lines 81–99): run the wait
loop inside `try ... except AssertionError`, log a caught assertion,
and fall through to regular processing unconditionally. -/
def daemonStartup (idleSleep : Nat) (hpos : 0 < idleSleep)
    (checkCont othersPresent : Nat → Bool) : StartupResult :=
  let r := waitLoop idleSleep hpos checkCont othersPresent 0 0
  ⟨r.1, r.2, true⟩

/-! ## Claim theorems -/

/-- Replace the owner field of an entry's identifier record, leaving
every other field unchanged (used to state owner-independence of the
transactional dispatch). -/
def setOwner (u : UpdateModel) (o : Option String) : UpdateModel :=
  ⟨u.seq, u.identifier, u.operation, u.updateExternalServices,
    ⟨o, u.actualObject.isReserved, u.actualObject.isTest,
      u.actualObject.isDatacite, u.actualObject.isCrossref⟩⟩

/-- C1: in the queue-drain loop, a queue entry whose identifier record
is reserved produces no external enqueue (resolver/binder,
metadata-registry, or deposit-registry): its transaction consists of
the entry deletion alone, every transaction operation is a non-enqueue,
and the deletion is executed inside the single atomic transaction the
entry's processing opens — for every entry processed without an
exception (either the search step completed or, the owner being null,
it was skipped). -/
theorem reserved_entry_deleted_without_external_enqueue
    (u : UpdateModel) (s : SearchResult)
    (hres : u.actualObject.isReserved = true)
    (hnoexc : u.actualObject.owner = none ∨ s = .ok) :
    entryTxnOps u = [.deleteEntry u.seq] ∧
    (∀ op ∈ entryTxnOps u, op.isEnqueue = false) ∧
    Effect.atomicTxn (entryTxnOps u) ∈ processEntry u s := by
  have htxn : entryTxnOps u = [.deleteEntry u.seq] := by
    simp [entryTxnOps, hres]
  refine ⟨htxn, ?_, ?_⟩
  · intro op hop
    rw [htxn] at hop
    simp only [List.mem_singleton] at hop
    subst hop
    rfl
  · rcases hnoexc with h | h
    · simp [processEntry, h]
    · subst h
      cases howner : u.actualObject.owner with
      | none => simp [processEntry, howner]
      | some o => simp [processEntry, howner]

/-- Concrete reserved entry for the C1 witness. -/
def reservedEntry : UpdateModel :=
  ⟨7, "doi:10.5072/FK2X", .create, true, ⟨some "user1", true, false, true, false⟩⟩

/-- Witness for C1 at a concrete reserved DataCite entry. -/
theorem reserved_entry_deleted_without_external_enqueue_witness :
    entryTxnOps reservedEntry = [.deleteEntry 7] ∧
    (∀ op ∈ entryTxnOps reservedEntry, op.isEnqueue = false) ∧
    Effect.atomicTxn (entryTxnOps reservedEntry) ∈ processEntry reservedEntry .ok :=
  reserved_entry_deleted_without_external_enqueue reservedEntry .ok rfl (Or.inr rfl)

/-- C10: a queue entry whose identifier record has a null owner
produces no search-index projection at all — its effect list is the
single atomic transaction — while the transactional external dispatch
and the deletion of the queue entry still occur, and the transaction's
content does not depend on the owner field, so it is the same as for
any otherwise-identical entry. -/
theorem null_owner_entry_skips_search_index
    (u : UpdateModel) (s : SearchResult) (h : u.actualObject.owner = none) :
    processEntry u s = [.atomicTxn (entryTxnOps u)] ∧
    (∀ id, Effect.searchUpsert id ∉ processEntry u s ∧
      Effect.searchDelete id ∉ processEntry u s) ∧
    TxnOp.deleteEntry u.seq ∈ entryTxnOps u ∧
    (∀ o, entryTxnOps (setOwner u o) = entryTxnOps u) := by
  have hp : processEntry u s = [.atomicTxn (entryTxnOps u)] := by simp [processEntry, h]
  refine ⟨hp, ?_, ?_, ?_⟩
  · intro id
    rw [hp]
    simp
  · simp [entryTxnOps]
  · intro o
    simp [entryTxnOps, setOwner]

/-- Concrete ownerless entry for the C10 witness. -/
def ownerlessEntry : UpdateModel :=
  ⟨9, "doi:10.5072/FK2Y", .update, true, ⟨none, false, false, true, false⟩⟩

/-- Witness for C10 at a concrete ownerless entry. -/
theorem null_owner_entry_skips_search_index_witness :
    processEntry ownerlessEntry .ok = [.atomicTxn (entryTxnOps ownerlessEntry)] ∧
    (∀ id, Effect.searchUpsert id ∉ processEntry ownerlessEntry .ok ∧
      Effect.searchDelete id ∉ processEntry ownerlessEntry .ok) ∧
    TxnOp.deleteEntry 9 ∈ entryTxnOps ownerlessEntry ∧
    (∀ o, entryTxnOps (setOwner ownerlessEntry o) = entryTxnOps ownerlessEntry) :=
  null_owner_entry_skips_search_index ownerlessEntry .ok rfl

/-- C3 (code bug): with the integration enabled and every HTTP attempt
of `registerIdentifier` succeeding with status 201 and body "OK", the
function does not return `None` after the first attempt: the response
body read by `c.read()` is a `bytes` value while the success assertion
compares it with the `str` literal `"OK"`, a comparison that is always
false in Python 3, so the assertion fails on every attempt and after
`numAttempts` (here 3) attempts the `AssertionError` is raised. -/
theorem registerIdentifier_success_body_assertion_fails :
    registerIdentifier true 3 (fun _ => .ok 201 (.bytes "OK"))
      = (.raise (.assertionError "unexpected return from DataCite register DOI operation"), 3) :=
  rfl

/-- Helper for C6: while another generation stays registered and the
continue-check holds, the wait loop sleeps only while the accumulated
wait is at most 60 and terminates by raising the assertion, with a
final accumulated wait above 60 but at most 60 plus one idle-sleep
increment. -/
theorem waitLoop_other_generation_persists (idleSleep : Nat) (hpos : 0 < idleSleep)
    (checkCont othersPresent : Nat → Bool)
    (hc : ∀ k, checkCont k = true) (hp : ∀ k, othersPresent k = true) :
    ∀ n t k, 61 - t ≤ n → t ≤ 60 + idleSleep →
      60 < (waitLoop idleSleep hpos checkCont othersPresent k t).1 ∧
      (waitLoop idleSleep hpos checkCont othersPresent k t).1 ≤ 60 + idleSleep ∧
      (waitLoop idleSleep hpos checkCont othersPresent k t).2 = true := by
  intro n
  induction n with
  | zero =>
    intro t k h1 h2
    have ht : ¬ t ≤ 60 := by omega
    rw [waitLoop]
    simp [hc k, hp k, ht]
    omega
  | succ n ih =>
    intro t k h1 h2
    rw [waitLoop]
    by_cases ht : t ≤ 60
    · simpa [hc k, hp k, ht] using ih (t + idleSleep) (k + 1) (by omega) (by omega)
    · simp [hc k, hp k, ht]
      omega

/-- C6: on daemon start, when another generation remains registered
throughout (and the continue-check holds), the startup phase sleeps in
idle-sleep increments only while the accumulated wait is at most 60;
once the accumulated wait exceeds 60 the consistency-violation
assertion fires, the error is caught and logged rather than
propagated, and the daemon proceeds to regular queue processing
anyway.  The accumulated wait at that point exceeds 60 by at most one
idle-sleep increment. -/
theorem daemon_startup_wait_bounded (idleSleep : Nat) (hpos : 0 < idleSleep)
    (checkCont othersPresent : Nat → Bool)
    (hc : ∀ k, checkCont k = true) (hp : ∀ k, othersPresent k = true) :
    (daemonStartup idleSleep hpos checkCont othersPresent).proceedsToProcessing = true ∧
    (daemonStartup idleSleep hpos checkCont othersPresent).errorLogged = true ∧
    60 < (daemonStartup idleSleep hpos checkCont othersPresent).totalWaitTime ∧
    (daemonStartup idleSleep hpos checkCont othersPresent).totalWaitTime ≤ 60 + idleSleep := by
  obtain ⟨h1, h2, h3⟩ :=
    waitLoop_other_generation_persists idleSleep hpos checkCont othersPresent hc hp 61 0 0
      (by omega) (by omega)
  exact ⟨rfl, h3, h1, h2⟩

/-- Witness for C6 with an idle sleep of 7 time units. -/
theorem daemon_startup_wait_bounded_witness :
    (daemonStartup 7 (by norm_num) (fun _ => true) (fun _ => true)).proceedsToProcessing = true ∧
    (daemonStartup 7 (by norm_num) (fun _ => true) (fun _ => true)).errorLogged = true ∧
    60 < (daemonStartup 7 (by norm_num) (fun _ => true) (fun _ => true)).totalWaitTime ∧
    (daemonStartup 7 (by norm_num) (fun _ => true) (fun _ => true)).totalWaitTime ≤ 67 :=
  daemon_startup_wait_bounded 7 (by norm_num) (fun _ => true) (fun _ => true)
    (fun _ => rfl) (fun _ => rfl)

/-- When every attempt reports HTTP 500, `registerIdentifier`'s loop
uses up all remaining attempts and re-raises the final error. -/
theorem registerGo_all500 (resp : Nat → Response) (b : PyStr)
    (h : ∀ j, resp j = .httpError 500 b) :
    ∀ fuel i, 0 < fuel → registerGo resp i fuel = (.raise (.httpError 500 b), i + fuel) := by
  intro fuel
  induction fuel with
  | zero => intro i h0; exact absurd h0 (by omega)
  | succ fuel ih =>
    intro i _
    rw [registerGo, h i]
    by_cases hf : fuel = 0
    · subst hf
      norm_num
    · have harith : i + 1 + fuel = i + (fuel + 1) := by omega
      have hrw := ih (i + 1) (by omega)
      simp [hf, hrw, harith]

/-- When every attempt reports HTTP 500, `getTargetUrl`'s loop uses up
all remaining attempts and re-raises the final error. -/
theorem getTargetGo_all500 (resp : Nat → Response) (b : PyStr)
    (h : ∀ j, resp j = .httpError 500 b) :
    ∀ fuel i, 0 < fuel → getTargetGo resp i fuel = (.raise (.httpError 500 b), i + fuel) := by
  intro fuel
  induction fuel with
  | zero => intro i h0; exact absurd h0 (by omega)
  | succ fuel ih =>
    intro i _
    rw [getTargetGo, h i]
    by_cases hf : fuel = 0
    · subst hf
      norm_num
    · have harith : i + 1 + fuel = i + (fuel + 1) := by omega
      have hrw := ih (i + 1) (by omega)
      simp [hf, hrw, harith]

/-- When every attempt reports HTTP 500, `uploadMetadata`'s loop uses
up all remaining attempts and re-raises the final error. -/
theorem uploadGo_all500 (resp : Nat → Response) (b : PyStr)
    (h : ∀ j, resp j = .httpError 500 b) :
    ∀ fuel i, 0 < fuel → uploadGo resp i fuel = (.raise (.httpError 500 b), i + fuel) := by
  intro fuel
  induction fuel with
  | zero => intro i h0; exact absurd h0 (by omega)
  | succ fuel ih =>
    intro i _
    rw [uploadGo, h i]
    by_cases hf : fuel = 0
    · subst hf
      norm_num
    · have harith : i + 1 + fuel = i + (fuel + 1) := by omega
      have hrw := ih (i + 1) (by omega)
      simp [hf, hrw, harith]

/-- The retry loop of `uploadMetadata`, once entered with at least one
attempt available, makes between 1 and `fuel` HTTP attempts. -/
theorem uploadGo_attempt_bounds (resp : Nat → Response) :
    ∀ fuel i, 0 < fuel →
      i + 1 ≤ (uploadGo resp i fuel).2 ∧ (uploadGo resp i fuel).2 ≤ i + fuel := by
  intro fuel
  induction fuel with
  | zero => intro i h0; exact absurd h0 (by omega)
  | succ fuel ih =>
    intro i _
    have hrec : 0 < fuel →
        i + 1 ≤ (uploadGo resp (i + 1) fuel).2 ∧
        (uploadGo resp (i + 1) fuel).2 ≤ i + (fuel + 1) := by
      intro hf2
      have := ih (i + 1) hf2
      omega
    rw [uploadGo]
    rcases hri : resp i with ⟨st, body⟩ | ⟨code, body⟩ | _
    · rcases hps : pyStartswith body (.str "OK") with _ | hb
      · by_cases hf : fuel = 0
        · simp [hps, hf] <;> omega
        · have := hrec (by omega)
          simp [hps, hf] <;> omega
      · cases hb
        · by_cases hf : fuel = 0
          · simp [hps, hf] <;> omega
          · have := hrec (by omega)
            simp [hps, hf] <;> omega
        · simp [hps] <;> omega
    · by_cases h4 : (code == 400 || code == 422) = true
      · simp [h4] <;> omega
      · by_cases hstop : (code != 500 || fuel == 0) = true
        · simp [h4, hstop] <;> omega
        · have hf : ¬ fuel = 0 := by
            intro hc
            simp [hc] at hstop
          have := hrec (by omega)
          simp [h4, hstop] <;> omega
    · by_cases hf : fuel = 0
      · simp [hf] <;> omega
      · have := hrec (by omega)
        simp [hf] <;> omega

/-- C4: with the record builder succeeding on `current + delta`, if the
new record equals the record formed from `current` alone and
`forceUpload` is false, `uploadMetadata` returns success (`None`)
having made zero network attempts; otherwise, with the integration
enabled, it enters its single retried network call, making between 1
and `numAttempts` HTTP attempts. -/
theorem uploadMetadata_idempotence_shortcircuit
    (formRec : Metadata → Option String) (current delta : Metadata) (force : Bool)
    (numAttempts : Nat) (resp : Nat → Response) (nr : String)
    (hnew : formRec (dictUpdate current delta) = some nr) (hn : 0 < numAttempts) :
    (formRec current = some nr → force = false →
      uploadMetadata true formRec current delta force numAttempts resp = (.ret none, 0)) ∧
    (formRec current ≠ some nr ∨ force = true →
      1 ≤ (uploadMetadata true formRec current delta force numAttempts resp).2 ∧
      (uploadMetadata true formRec current delta force numAttempts resp).2 ≤ numAttempts) := by
  constructor
  · intro hold hforce
    subst hforce
    simp [uploadMetadata, hnew, hold]
  · intro hne
    have hcond : (some nr == formRec current && !force) = false := by
      rcases hne with hne | hne
      · have : (some nr == formRec current) = false := by
          rw [beq_eq_false_iff_ne]
          exact fun hc => hne hc.symm
        simp [this]
      · simp [hne]
    simp only [uploadMetadata, hnew, hcond, Bool.false_eq_true, if_false,
      Bool.not_true, reduceIte]
    have hb := uploadGo_attempt_bounds resp numAttempts 0 hn
    exact ⟨by omega, by omega⟩

/-- Concrete record builder for the C4 witness: fails on the empty
dict, echoes a record containing the title otherwise. -/
def c4FormRec : Metadata → Option String :=
  fun m => match m.lookup "datacite.title" with
    | some t => some ("<resource><title>" ++ t ++ "</title></resource>")
    | none => none

/-- Witness for C4: an unchanged record short-circuits with zero
attempts; a changed record enters the network loop. -/
theorem uploadMetadata_idempotence_shortcircuit_witness :
    (uploadMetadata true c4FormRec [("datacite.title", "T")] [] false 3
      (fun _ => .httpError 500 (.bytes "err")) = (.ret none, 0)) ∧
    (1 ≤ (uploadMetadata true c4FormRec [("datacite.title", "T")] [("datacite.title", "U")]
        false 3 (fun _ => .httpError 500 (.bytes "err"))).2 ∧
      (uploadMetadata true c4FormRec [("datacite.title", "T")] [("datacite.title", "U")]
        false 3 (fun _ => .httpError 500 (.bytes "err"))).2 ≤ 3) := by
  constructor
  · exact (uploadMetadata_idempotence_shortcircuit c4FormRec [("datacite.title", "T")] [] false 3
      (fun _ => .httpError 500 (.bytes "err"))
      "<resource><title>T</title></resource>" rfl (by omega)).1 rfl rfl
  · exact (uploadMetadata_idempotence_shortcircuit c4FormRec [("datacite.title", "T")]
      [("datacite.title", "U")] false 3 (fun _ => .httpError 500 (.bytes "err"))
      "<resource><title>U</title></resource>" rfl (by omega)).2 (Or.inl (by decide))

/-- When the new record differs from the old one (and force is off),
`uploadMetadata` proceeds to its retry loop. -/
theorem uploadMetadata_enters_network (formRec : Metadata → Option String)
    (current delta : Metadata) (numAttempts : Nat) (resp : Nat → Response) (nr : String)
    (hnew : formRec (dictUpdate current delta) = some nr) (hne : formRec current ≠ some nr) :
    uploadMetadata true formRec current delta false numAttempts resp
      = uploadGo resp 0 numAttempts := by
  have hbeq : (some nr == formRec current) = false := by
    rw [beq_eq_false_iff_ne]
    exact fun hc => hne hc.symm
  simp [uploadMetadata, hnew, hbeq]

/-- C2: with the integration enabled, each of `registerIdentifier`,
`getTargetUrl` and `uploadMetadata` makes exactly `numAttempts`
attempts and raises the final error when every attempt receives HTTP
500; and a 400, 422 or 404 response causes no further attempt:
`registerIdentifier` returns the body as a validation message on a 400
whose body starts with the URL-field marker and raises after one
attempt on a 400 without it or on any other non-500 error;
`uploadMetadata` returns a validation message after one attempt on
400/422 and raises after one attempt on other non-500 errors;
`getTargetUrl` returns `None` after one attempt on 404 and raises
after one attempt on other non-500 errors. -/
theorem retry_and_no_retry_behaviour (numAttempts : Nat) (hn : 0 < numAttempts) :
    (∀ resp b, (∀ j, resp j = Response.httpError 500 b) →
      registerIdentifier true numAttempts resp = (.raise (.httpError 500 b), numAttempts)) ∧
    (∀ resp b, (∀ j, resp j = Response.httpError 500 b) →
      getTargetUrl numAttempts resp = (.raise (.httpError 500 b), numAttempts)) ∧
    (∀ resp b formRec current delta nr, (∀ j, resp j = Response.httpError 500 b) →
      formRec (dictUpdate current delta) = some nr → formRec current ≠ some nr →
      uploadMetadata true formRec current delta false numAttempts resp
        = (.raise (.httpError 500 b), numAttempts)) ∧
    (∀ resp s, resp 0 = Response.httpError 400 (.bytes s) → "[url]".data.isPrefixOf s.data = true →
      registerIdentifier true numAttempts resp = (.ret (some (.bytes s)), 1)) ∧
    (∀ resp s, resp 0 = Response.httpError 400 (.bytes s) → "[url]".data.isPrefixOf s.data = false →
      registerIdentifier true numAttempts resp = (.raise (.httpError 400 (.bytes s)), 1)) ∧
    (∀ resp c b, resp 0 = Response.httpError c b → c ≠ 400 → c ≠ 500 →
      registerIdentifier true numAttempts resp = (.raise (.httpError c b), 1)) ∧
    (∀ resp c s formRec current delta nr, resp 0 = Response.httpError c (.bytes s) →
      c = 400 ∨ c = 422 →
      formRec (dictUpdate current delta) = some nr → formRec current ≠ some nr →
      uploadMetadata true formRec current delta false numAttempts resp
        = (.ret (some ("element 'datacite': " ++ s)), 1)) ∧
    (∀ resp c b formRec current delta nr, resp 0 = Response.httpError c b →
      c ≠ 400 → c ≠ 422 → c ≠ 500 →
      formRec (dictUpdate current delta) = some nr → formRec current ≠ some nr →
      uploadMetadata true formRec current delta false numAttempts resp
        = (.raise (.httpError c b), 1)) ∧
    (∀ resp b, resp 0 = Response.httpError 404 b →
      getTargetUrl numAttempts resp = (.ret none, 1)) ∧
    (∀ resp c b, resp 0 = Response.httpError c b → c ≠ 404 → c ≠ 500 →
      getTargetUrl numAttempts resp = (.raise (.httpError c b), 1)) := by
  have hsucc := Nat.exists_eq_succ_of_ne_zero (Nat.pos_iff_ne_zero.mp hn)
  refine ⟨?_, ?_, ?_, ?_, ?_, ?_, ?_, ?_, ?_, ?_⟩
  · intro resp b h
    show registerGo resp 0 numAttempts = _
    rw [registerGo_all500 resp b h numAttempts 0 hn]
    norm_num
  · intro resp b h
    show getTargetGo resp 0 numAttempts = _
    rw [getTargetGo_all500 resp b h numAttempts 0 hn]
    norm_num
  · intro resp b formRec current delta nr h hnew hne
    rw [uploadMetadata_enters_network formRec current delta numAttempts resp nr hnew hne]
    rw [uploadGo_all500 resp b h numAttempts 0 hn]
    norm_num
  · intro resp s h0 hpre
    obtain ⟨m, rfl⟩ := hsucc
    show registerGo resp 0 (m + 1) = _
    rw [registerGo, h0]
    simp [pyStartswith, hpre]
  · intro resp s h0 hpre
    obtain ⟨m, rfl⟩ := hsucc
    show registerGo resp 0 (m + 1) = _
    rw [registerGo, h0]
    simp [pyStartswith, hpre]
  · intro resp c b h0 h400 h500
    obtain ⟨m, rfl⟩ := hsucc
    show registerGo resp 0 (m + 1) = _
    rw [registerGo, h0]
    simp [h400, h500]
  · intro resp c s formRec current delta nr h0 hc hnew hne
    rw [uploadMetadata_enters_network formRec current delta numAttempts resp nr hnew hne]
    obtain ⟨m, rfl⟩ := hsucc
    rw [uploadGo, h0]
    rcases hc with hc | hc <;> subst hc <;> simp [pyDecode]
  · intro resp c b formRec current delta nr h0 h400 h422 h500 hnew hne
    rw [uploadMetadata_enters_network formRec current delta numAttempts resp nr hnew hne]
    obtain ⟨m, rfl⟩ := hsucc
    rw [uploadGo, h0]
    simp [h400, h422, h500]
  · intro resp b h0
    obtain ⟨m, rfl⟩ := hsucc
    show getTargetGo resp 0 (m + 1) = _
    rw [getTargetGo, h0]
    simp
  · intro resp c b h0 h404 h500
    obtain ⟨m, rfl⟩ := hsucc
    show getTargetGo resp 0 (m + 1) = _
    rw [getTargetGo, h0]
    simp [h404, h500]

/-- Witness for C2 with three attempts: exhaustion on constant 500
responses for all three calls, and the four no-retry behaviours at
concrete first responses. -/
theorem retry_and_no_retry_behaviour_witness :
    registerIdentifier true 3 (fun _ => .httpError 500 (.bytes "boom"))
      = (.raise (.httpError 500 (.bytes "boom")), 3) ∧
    getTargetUrl 3 (fun _ => .httpError 500 (.bytes "boom"))
      = (.raise (.httpError 500 (.bytes "boom")), 3) ∧
    uploadMetadata true c4FormRec [] [("datacite.title", "T")] false 3
      (fun _ => .httpError 500 (.bytes "boom"))
      = (.raise (.httpError 500 (.bytes "boom")), 3) ∧
    registerIdentifier true 3 (fun _ => .httpError 400 (.bytes "[url] bad target"))
      = (.ret (some (.bytes "[url] bad target")), 1) ∧
    registerIdentifier true 3 (fun _ => .httpError 404 (.bytes "gone"))
      = (.raise (.httpError 404 (.bytes "gone")), 1) ∧
    uploadMetadata true c4FormRec [] [("datacite.title", "T")] false 3
      (fun _ => .httpError 422 (.bytes "bad xml"))
      = (.ret (some "element 'datacite': bad xml"), 1) ∧
    getTargetUrl 3 (fun _ => .httpError 404 (.bytes "gone")) = (.ret none, 1) := by
  obtain ⟨h1, h2, h3, h4, h5, h6, h7, h8, h9, h10⟩ := retry_and_no_retry_behaviour 3 (by omega)
  refine ⟨?_, ?_, ?_, ?_, ?_, ?_, ?_⟩
  · exact h1 _ _ fun j => rfl
  · exact h2 _ _ fun j => rfl
  · exact h3 _ _ c4FormRec [] [("datacite.title", "T")]
      "<resource><title>T</title></resource>" (fun j => rfl) rfl (by decide)
  · exact h4 _ "[url] bad target" rfl (by decide)
  · exact h6 _ 404 _ rfl (by omega) (by omega)
  · exact h7 _ 422 "bad xml" c4FormRec [] [("datacite.title", "T")]
      "<resource><title>T</title></resource>" rfl (Or.inr rfl) rfl (by decide)
  · exact h9 _ _ rfl

/-- Record builder for the C5 evaluation: the empty current dict has
none of the required fields (the real `formRecord` raises
`AssertionError` there, via the external mapping collaborator), while
the merged placeholder dict forms a record. -/
def c5FormRec : Metadata → Option String :=
  fun m => if m.isEmpty then none else some "<resource>inactive placeholder</resource>"

/-- C5 (code bug): with the integration enabled, when the
delete-equivalent request receives a 404, `deactivate` does attempt
the placeholder upload (title, creator, publisher "inactive" and year
"0000" — the `inactiveDelta` fields), but the subsequent retry of the
deactivation is unreachable: the upload's success assertion calls
`bytes.startswith` with a `str` argument, raising `TypeError` before
`uploadMetadata` can return `None`.  Here, with every upload attempt
succeeding with 201/"OK", the `TypeError` propagates after a single
`_deactivate` call instead of the deactivation being retried. -/
theorem deactivate_bootstrap_retry_unreachable :
    deactivate true c5FormRec 3
      (fun _ => .httpError 404 (.bytes "not found"))
      (fun _ => .ok 201 (.bytes "OK"))
      (fun _ => .ok 200 (.bytes "OK"))
      = ⟨.raise .typeError, 1, true⟩ := rfl

/-- Mapping an attribute list with the set-key substitution leaves it
unchanged when the key does not occur. -/
theorem map_id_of_not_key (a : List (String × String)) (k v : String)
    (h : (a.any fun p => p.1 == k) = false) :
    (a.map fun p => if p.1 == k then (k, v) else p) = a := by
  induction a with
  | nil => rfl
  | cons x xs ih =>
    simp only [List.any_cons, Bool.or_eq_false_iff] at h
    have hx : ¬ ((x.1 == k) = true) := by simp [h.1]
    simp only [List.map_cons, if_neg hx, ih h.2]

/-- Setting the same attribute twice equals setting it once. -/
theorem setAttr_idem (a : List (String × String)) (k v : String) :
    setAttr (setAttr a k v) k v = setAttr a k v := by
  unfold setAttr
  by_cases h : (a.any fun p => p.1 == k) = true
  · rw [if_pos h]
    have hany : ((a.map fun p => if p.1 == k then (k, v) else p).any fun p => p.1 == k)
        = true := by
      obtain ⟨p, hp, hk⟩ := List.any_eq_true.mp h
      refine List.any_eq_true.mpr ⟨(k, v), List.mem_map.mpr ⟨p, hp, by simp [hk]⟩, by simp⟩
    rw [if_pos hany, List.map_map]
    refine List.map_congr_left fun p hp => ?_
    show (fun p => if p.1 == k then (k, v) else p)
        ((fun p => if p.1 == k then (k, v) else p) p)
      = (fun p => if p.1 == k then (k, v) else p) p
    by_cases hpk : (p.1 == k) = true
    · simp only [if_pos hpk]
      simp
    · simp only [if_neg hpk]
  · rw [if_neg h]
    have hfalse : (a.any fun p => p.1 == k) = false := by
      cases hb : (a.any fun p => p.1 == k)
      · rfl
      · exact absurd hb h
    have hany : (((a ++ [(k, v)]).any fun p => p.1 == k) = true) :=
      List.any_eq_true.mpr ⟨(k, v), by simp, by simp⟩
    rw [if_pos hany, List.map_append, map_id_of_not_key a k v hfalse]
    simp

/-- Setting the same attribute twice on an element equals setting it
once. -/
theorem setAttrib_idem (e : Element) (k v : String) :
    (e.setAttrib k v).setAttrib k v = e.setAttrib k v := by
  simp [Element.setAttrib, setAttr_idem]

/-- C8: a record already at the current schema version migrates to a
fixed point — applying `upgradeDcmsRecord` to the result of a first
application returns that result unchanged (the second application is
a no-op). -/
theorem upgradeDcmsRecord_idempotent_on_current (root r : Element)
    (h4 : root.ns = "4") (h : upgradeDcmsRecord root = Except.ok r) :
    upgradeDcmsRecord r = Except.ok r := by
  obtain ⟨ns, nm, attrib, text, children⟩ := root
  simp only [Element.ns] at h4
  subst h4
  by_cases hname : nm = "resource"
  · subst hname
    have hr : Element.mk "4" "resource" (setAttr attrib xsiSchemaLocation kernel4SchemaLocation)
        text children = r := by
      simpa [upgradeDcmsRecord, Element.setAttrib, pure, Except.pure, bind, Except.bind,
        throw, throwThe, MonadExceptOf.throw, Functor.map, Except.map] using h
    subst hr
    simp [upgradeDcmsRecord, Element.setAttrib, setAttr_idem, pure, Except.pure, bind,
      Except.bind, throw, throwThe, MonadExceptOf.throw, Functor.map, Except.map]
  · exfalso
    simp [upgradeDcmsRecord, Element.setAttrib, hname, pure, Except.pure, bind, Except.bind,
      throw, throwThe, MonadExceptOf.throw, Functor.map, Except.map] at h

/-- Concrete current-version record for the C8 witness. -/
def currentRecord : Element :=
  .mk "4" "resource" [] none
    [.mk "4" "identifier" [("identifierType", "DOI")] (some "10.1234/X") []]

/-- Witness for C8: the once-migrated form of a version-4 record is a
fixed point of the migration. -/
theorem upgradeDcmsRecord_idempotent_on_current_witness :
    upgradeDcmsRecord (currentRecord.setAttrib xsiSchemaLocation kernel4SchemaLocation)
      = Except.ok (currentRecord.setAttrib xsiSchemaLocation kernel4SchemaLocation) :=
  upgradeDcmsRecord_idempotent_on_current currentRecord
    (currentRecord.setAttrib xsiSchemaLocation kernel4SchemaLocation) rfl rfl

/-- C7: for a qualified identifier and a well-formed record — root tag
a kernel `resource` at a supported, non-deprecated version, with a
single `identifier` child carrying an `identifierType` attribute —
when the declared type differs from the type derived from the
identifier's scheme prefix (doi: → DOI, ark:/ → ARK, uuid: → UUID),
`validateDcmsRecord` fails with the type-mismatch error instead of
returning a normalized record. -/
theorem validateDcmsRecord_type_mismatch
    (schemas : List String) (schemaOk : String → Element → Bool)
    (identifier : String) (root : Element) (sv : Bool) (i : Element)
    (declType idType idBody : String)
    (hname : root.name = "resource")
    (hv1 : root.ns ≠ "2.1") (hv2 : root.ns ≠ "2.2")
    (hsch : schemas.contains root.ns = true)
    (hid : root.children.filter (isIdentifierChild root.ns) = [i])
    (hdecl : getAttr i "identifierType" = some declType)
    (hscheme : schemeType identifier = some (idType, idBody))
    (hne : declType ≠ idType) :
    validateDcmsRecord schemas schemaOk identifier root sv
      = Except.error "mismatch between identifier type and <identifier> element" := by
  obtain ⟨ns, nm, attrib, text, children⟩ := root
  simp only [Element.ns, Element.name, Element.children] at hname hv1 hv2 hsch hid
  subst hname
  have hmem : ns ∈ schemas := by simpa using hsch
  simp [validateDcmsRecord, hv1, hv2, hsch, hmem, hid, hdecl, hscheme, hne,
    pure, Except.pure, bind, Except.bind, throw, throwThe, MonadExceptOf.throw]

/-- Concrete record for the C7 witness: a version-4 record whose
identifier element declares type ARK, validated against a DOI
identifier. -/
def mismatchRecord : Element :=
  .mk "4" "resource" [] none
    [.mk "4" "identifier" [("identifierType", "ARK")] (some "10.1234/X") []]

/-- Witness for C7 at the concrete mismatching record. -/
theorem validateDcmsRecord_type_mismatch_witness :
    validateDcmsRecord ["4"] (fun _ _ => true) "doi:10.1234/X" mismatchRecord true
      = Except.error "mismatch between identifier type and <identifier> element" :=
  validateDcmsRecord_type_mismatch ["4"] (fun _ _ => true) "doi:10.1234/X" mismatchRecord true
    (Element.mk "4" "identifier" [("identifierType", "ARK")] (some "10.1234/X") [])
    "ARK" "DOI" "10.1234/X" rfl (by decide) (by decide) (by decide) rfl rfl (by decide)
    (by decide)

/-- A geolocation point element (any child count). -/
def isPoint (e : Element) : Bool :=
  e.ns == "4" && e.name == "geoLocationPoint"

/-- The element `p` occurs in the tree rooted at `e`: it is `e` itself
or occurs in the tree of one of `e`'s children. -/
inductive Subtree : Element → Element → Prop where
  | refl (e : Element) : Subtree e e
  | child {p c e : Element} : c ∈ e.children → Subtree p c → Subtree p e

/-- The element `p` occurs in the tree of some member of `l`. -/
def SubtreeL (p : Element) (l : List Element) : Prop :=
  ∃ c ∈ l, Subtree p c

/-- Nothing occurs below an empty list of trees. -/
theorem subtreeL_nil {p : Element} : ¬ SubtreeL p [] := by
  rintro ⟨x, hx, _⟩
  exact absurd hx (List.not_mem_nil x)

/-- Occurrence below a cons splits into the head tree and the rest. -/
theorem subtreeL_cons {p c : Element} {rest : List Element} :
    SubtreeL p (c :: rest) ↔ Subtree p c ∨ SubtreeL p rest := by
  constructor
  · rintro ⟨x, hx, hs⟩
    rcases List.mem_cons.mp hx with rfl | hx
    · exact Or.inl hs
    · exact Or.inr ⟨x, hx, hs⟩
  · rintro (hs | ⟨x, hx, hs⟩)
    · exact ⟨c, List.mem_cons_self c rest, hs⟩
    · exact ⟨x, List.mem_cons_of_mem c hx, hs⟩

/-- The only occurrence in a childless tree is the root itself. -/
theorem subtree_of_childless {p c : Element} (h : Subtree p c) (hc : c.children = []) :
    p = c := by
  cases h with
  | refl => rfl
  | child hm hs =>
    rw [hc] at hm
    exact absurd hm (List.not_mem_nil _)

/-- Occurrence in a constructed element: the element itself or below
one of its children. -/
theorem subtree_mk_cases {p : Element} {ns nm : String} {attrib : List (String × String)}
    {text : Option String} {children : List Element}
    (h : Subtree p (.mk ns nm attrib text children)) :
    p = .mk ns nm attrib text children ∨ SubtreeL p children := by
  cases h with
  | refl => exact Or.inl rfl
  | child hm hs => exact Or.inr ⟨_, by simpa using hm, hs⟩

/-- A childless point has an empty child list. -/
theorem children_eq_nil_of_childless {c : Element} (h : isChildlessPoint c = true) :
    c.children = [] := by
  simp [isChildlessPoint, List.isEmpty_iff] at h
  exact h.2

/-- A childless point is a point. -/
theorem isPoint_of_childless {c : Element} (h : isChildlessPoint c = true) :
    isPoint c = true := by
  simp [isChildlessPoint] at h
  simp [isPoint, h.1.1, h.1.2]

/-- No element occurring in the rewritten form of a point is a
childless point: the rewritten point has two children, and those are
coordinate elements, not points. -/
theorem subtree_rewritePoint_not_childless {q p : Element} {lat lon : String}
    (h : Subtree q (rewritePoint p lat lon)) : isChildlessPoint q = false := by
  cases h with
  | refl => simp [isChildlessPoint, rewritePoint]
  | child hm hs =>
    simp [rewritePoint] at hm
    rcases hm with rfl | rfl
    · rw [subtree_of_childless hs (by simp)]
      simp [isChildlessPoint]
    · rw [subtree_of_childless hs (by simp)]
      simp [isChildlessPoint]

/-- Main inductive lemma for C9: processing sibling trees whose
points are all childless rewrites every two-coordinate childless point
into the output (at its place in the tree) and leaves no childless
point anywhere in the output. -/
theorem fixGeoPointsL_spec :
    ∀ n, ∀ l l' : List Element, sizeOf l ≤ n → fixGeoPointsL l = Except.ok l' →
      (∀ p, SubtreeL p l → isPoint p = true → p.children = []) →
      ((∀ p t lat lon, SubtreeL p l → isChildlessPoint p = true → p.text = some t →
          splitPy t = [lat, lon] → SubtreeL (rewritePoint p lat lon) l') ∧
       (∀ q, SubtreeL q l' → isChildlessPoint q = false)) := by
  intro n
  induction n using Nat.strong_induction_on with
  | _ n ih =>
    intro l l' hsz hok hflat
    cases l with
    | nil =>
      rw [fixGeoPointsL] at hok
      simp only [pure, Except.pure, Except.ok.injEq] at hok
      subst hok
      exact ⟨fun p t lat lon hp _ _ _ => absurd hp subtreeL_nil,
        fun q hq => absurd hq subtreeL_nil⟩
    | cons c rest =>
      have hszrest : sizeOf rest ≤ n - 1 := by
        have hspec : sizeOf (c :: rest) = 1 + sizeOf c + sizeOf rest := by simp
        omega
      have hflatrest : ∀ p, SubtreeL p rest → isPoint p = true → p.children = [] :=
        fun p hp hpt => hflat p (subtreeL_cons.mpr (Or.inr hp)) hpt
      have hflatc : ∀ p, Subtree p c → isPoint p = true → p.children = [] :=
        fun p hp hpt => hflat p (subtreeL_cons.mpr (Or.inl hp)) hpt
      have hnlt : n - 1 < n := by
        have hspec : sizeOf (c :: rest) = 1 + sizeOf c + sizeOf rest := by simp
        omega
      rw [fixGeoPointsL] at hok
      by_cases hcp : isChildlessPoint c = true
      · -- the childless-point rule applies to the head
        have hcc : c.children = [] := children_eq_nil_of_childless hcp
        rw [if_pos hcp] at hok
        cases htc : c.text with
        | none =>
          rw [htc] at hok
          simp [throw, throwThe, MonadExceptOf.throw] at hok
        | some t0 =>
          rw [htc] at hok
          have headeq : ∀ p, Subtree p c → p = c := fun p hp => subtree_of_childless hp hcc
          cases hsplit : splitPy t0 with
          | nil =>
            simp only [hsplit] at hok
            obtain ⟨P1, P2⟩ := ih (n - 1) hnlt rest l' hszrest hok hflatrest
            refine ⟨?_, P2⟩
            intro p t lat lon hp hpc hpt hps
            rcases subtreeL_cons.mp hp with hp | hp
            · rw [headeq p hp] at hpt
              rw [htc] at hpt
              rw [← Option.some_inj.mp hpt] at hps
              rw [hsplit] at hps
              simp at hps
            · exact P1 p t lat lon hp hpc hpt hps
          | cons a tl =>
            cases tl with
            | nil =>
              simp only [hsplit] at hok
              obtain ⟨P1, P2⟩ := ih (n - 1) hnlt rest l' hszrest hok hflatrest
              refine ⟨?_, P2⟩
              intro p t lat lon hp hpc hpt hps
              rcases subtreeL_cons.mp hp with hp | hp
              · rw [headeq p hp] at hpt
                rw [htc] at hpt
                rw [← Option.some_inj.mp hpt] at hps
                rw [hsplit] at hps
                simp at hps
              · exact P1 p t lat lon hp hpc hpt hps
            | cons b tl2 =>
              cases tl2 with
              | nil =>
                -- the two-coordinate rewrite case
                simp only [hsplit] at hok
                cases hrest : fixGeoPointsL rest with
                | error err =>
                  rw [hrest] at hok
                  simp [bind, Except.bind] at hok
                | ok rest' =>
                  rw [hrest] at hok
                  simp only [bind, Except.bind, pure, Except.pure, Except.ok.injEq] at hok
                  subst hok
                  obtain ⟨P1, P2⟩ := ih (n - 1) hnlt rest rest' hszrest hrest hflatrest
                  constructor
                  · intro p t lat lon hp hpc hpt hps
                    rcases subtreeL_cons.mp hp with hp | hp
                    · have hpceq := headeq p hp
                      rw [hpceq] at hpt ⊢
                      rw [htc] at hpt
                      rw [← Option.some_inj.mp hpt] at hps
                      rw [hsplit] at hps
                      have hab : a = lat ∧ b = lon := by simpa using hps
                      obtain ⟨rfl, rfl⟩ := hab
                      exact subtreeL_cons.mpr (Or.inl (Subtree.refl _))
                    · exact subtreeL_cons.mpr (Or.inr (P1 p t lat lon hp hpc hpt hps))
                  · intro q hq
                    rcases subtreeL_cons.mp hq with hq | hq
                    · exact subtree_rewritePoint_not_childless hq
                    · exact P2 q hq
              | cons x xs =>
                simp only [hsplit] at hok
                obtain ⟨P1, P2⟩ := ih (n - 1) hnlt rest l' hszrest hok hflatrest
                refine ⟨?_, P2⟩
                intro p t lat lon hp hpc hpt hps
                rcases subtreeL_cons.mp hp with hp | hp
                · rw [headeq p hp] at hpt
                  rw [htc] at hpt
                  rw [← Option.some_inj.mp hpt] at hps
                  rw [hsplit] at hps
                  simp at hps
                · exact P1 p t lat lon hp hpc hpt hps
      · -- recurse into the head's children
        rw [if_neg hcp] at hok
        obtain ⟨nsc, nmc, ac, tc, csc⟩ := c
        have hszc : sizeOf csc ≤ n - 1 := by
          have hspec1 : sizeOf (Element.mk nsc nmc ac tc csc :: rest)
              = 1 + sizeOf (Element.mk nsc nmc ac tc csc) + sizeOf rest := by simp
          have hspec2 : sizeOf (Element.mk nsc nmc ac tc csc)
              = 1 + sizeOf nsc + sizeOf nmc + sizeOf ac + sizeOf tc + sizeOf csc := by simp
          omega
        rw [fixGeoPoints] at hok
        cases hcs : fixGeoPointsL csc with
        | error err =>
          rw [hcs] at hok
          simp [bind, Except.bind] at hok
        | ok cs2 =>
          rw [hcs] at hok
          cases hrest : fixGeoPointsL rest with
          | error err =>
            rw [hrest] at hok
            simp [bind, Except.bind, pure, Except.pure] at hok
          | ok rest' =>
            rw [hrest] at hok
            simp only [bind, Except.bind, pure, Except.pure, Except.ok.injEq] at hok
            subst hok
            have hflatcsc : ∀ p, SubtreeL p csc → isPoint p = true → p.children = [] := by
              intro p hp hpt
              obtain ⟨x, hx, hxs⟩ := hp
              exact hflatc p (Subtree.child (by simpa using hx) hxs) hpt
            obtain ⟨Q1, Q2⟩ := ih (n - 1) hnlt csc cs2 hszc hcs hflatcsc
            obtain ⟨P1, P2⟩ := ih (n - 1) hnlt rest rest' hszrest hrest hflatrest
            constructor
            · intro p t lat lon hp hpc hpt hps
              rcases subtreeL_cons.mp hp with hp | hp
              · rcases subtree_mk_cases hp with rfl | hp
                · exact absurd hpc (by simp [hcp])
                · have := Q1 p t lat lon hp hpc hpt hps
                  obtain ⟨x, hx, hxs⟩ := this
                  exact subtreeL_cons.mpr (Or.inl (Subtree.child (by simpa using hx) hxs))
              · exact subtreeL_cons.mpr (Or.inr (P1 p t lat lon hp hpc hpt hps))
            · intro q hq
              rcases subtreeL_cons.mp hq with hq | hq
              · rcases subtree_mk_cases hq with rfl | hq
                · by_cases hip : isPoint (Element.mk nsc nmc ac tc csc) = true
                  · have hcn : csc = [] := by
                      have := hflatc (Element.mk nsc nmc ac tc csc) (Subtree.refl _) hip
                      simpa using this
                    subst hcn
                    refine absurd ?_ hcp
                    simp [isPoint] at hip
                    simp [isChildlessPoint, hip.1, hip.2]
                  · simp [isPoint] at hip
                    simp [isChildlessPoint]
                    intro h1 h2
                    exact absurd h2 (hip h1)
                · exact Q2 q hq
              · exact P2 q hq

/-- C9: in the geolocation-point step of the deprecated-version
migration — applied to a record whose root is not itself a point and
whose points carry no child elements, as the 2.x shorthand form has —
every childless geolocation point whose text splits into exactly two
whitespace-separated values (latitude then longitude) is rewritten to
carry a `pointLongitude` sub-element with the second value followed by
a `pointLatitude` sub-element with the first, and occurs so in the
output; no childless point survives in the output, and in particular a
childless point whose text splits into any other number of values is
removed from the document. -/
theorem migration_geoLocationPoint_rewrite (e e' : Element)
    (hok : fixGeoPoints e = Except.ok e')
    (hflat : ∀ p, Subtree p e → isPoint p = true → p.children = [])
    (hroot : isPoint e = false) :
    (∀ p t lat lon, Subtree p e → isChildlessPoint p = true → p.text = some t →
        splitPy t = [lat, lon] → Subtree (rewritePoint p lat lon) e') ∧
    (∀ q, Subtree q e' → isChildlessPoint q = false) ∧
    (∀ p t, Subtree p e → isChildlessPoint p = true → p.text = some t →
        (splitPy t).length ≠ 2 → ¬ Subtree p e') := by
  obtain ⟨ns, nm, attrib, text, children⟩ := e
  rw [fixGeoPoints] at hok
  cases hcs : fixGeoPointsL children with
  | error err =>
    rw [hcs] at hok
    simp [bind, Except.bind] at hok
  | ok cs2 =>
    rw [hcs] at hok
    simp only [bind, Except.bind, pure, Except.pure, Except.ok.injEq] at hok
    subst hok
    have hflatch : ∀ p, SubtreeL p children → isPoint p = true → p.children = [] := by
      intro p hp hpt
      obtain ⟨x, hx, hxs⟩ := hp
      exact hflat p (Subtree.child (by simpa using hx) hxs) hpt
    obtain ⟨P1, P2⟩ := fixGeoPointsL_spec (sizeOf children) children cs2 le_rfl hcs hflatch
    have hP2 : ∀ q, Subtree q (Element.mk ns nm attrib text cs2) →
        isChildlessPoint q = false := by
      intro q hq
      rcases subtree_mk_cases hq with rfl | hq
      · simp [isPoint] at hroot
        simp [isChildlessPoint]
        intro h1 h2
        exact absurd h2 (hroot h1)
      · exact P2 q hq
    refine ⟨?_, hP2, ?_⟩
    · intro p t lat lon hp hpc hpt hps
      rcases subtree_mk_cases hp with rfl | hp
      · exact absurd (isPoint_of_childless hpc) (by simp [hroot])
      · obtain ⟨x, hx, hxs⟩ := P1 p t lat lon hp hpc hpt hps
        exact Subtree.child (by simpa using hx) hxs
    · intro p t hp hpc hpt hlen hcontra
      exact absurd (hP2 p hcontra) (by simp [hpc])

/-- A well-formed two-coordinate shorthand point for the C9 witness. -/
def goodPoint : Element := .mk "4" "geoLocationPoint" [] (some "1.5 2.5") []

/-- A malformed three-coordinate shorthand point for the C9 witness. -/
def badPoint : Element := .mk "4" "geoLocationPoint" [] (some "1 2 3") []

/-- The input record for the C9 witness. -/
def geoRecord : Element := .mk "4" "resource" [] none [goodPoint, badPoint]

/-- The geolocation-point step's output on `geoRecord`: the good point
rewritten longitude-first, the malformed point removed. -/
def geoRecordOut : Element :=
  .mk "4" "resource" [] none
    [.mk "4" "geoLocationPoint" [] none
      [.mk "4" "pointLongitude" [] (some "2.5") [],
       .mk "4" "pointLatitude" [] (some "1.5") []]]

/-- Witness for C9 at the concrete two-point record. -/
theorem migration_geoLocationPoint_rewrite_witness :
    Subtree (rewritePoint goodPoint "1.5" "2.5") geoRecordOut ∧
    (∀ q, Subtree q geoRecordOut → isChildlessPoint q = false) ∧
    ¬ Subtree badPoint geoRecordOut := by
  have hok : fixGeoPoints geoRecord = Except.ok geoRecordOut := by
    simp [fixGeoPoints, fixGeoPointsL, geoRecord, geoRecordOut, goodPoint, badPoint,
      isChildlessPoint, splitPy, splitPyAux, rewritePoint, bind, Except.bind, pure, Except.pure]
  have hflat : ∀ p, Subtree p geoRecord → isPoint p = true → p.children = [] := by
    intro p hp hpt
    simp only [geoRecord] at hp
    rcases subtree_mk_cases hp with rfl | hp
    · simp [isPoint] at hpt
    · obtain ⟨x, hx, hxs⟩ := hp
      rcases List.mem_cons.mp hx with rfl | hx
      · rw [subtree_of_childless hxs (by simp [goodPoint])]
        simp [goodPoint]
      · rcases List.mem_cons.mp hx with rfl | hx
        · rw [subtree_of_childless hxs (by simp [badPoint])]
          simp [badPoint]
        · exact absurd hx (List.not_mem_nil x)
  obtain ⟨P1, P2, P3⟩ := migration_geoLocationPoint_rewrite geoRecord geoRecordOut hok hflat
    (by simp [geoRecord, isPoint])
  refine ⟨?_, P2, ?_⟩
  · exact P1 goodPoint "1.5 2.5" "1.5" "2.5"
      (Subtree.child (by simp [geoRecord]) (Subtree.refl _))
      (by decide) (by decide) (by decide)
  · exact P3 badPoint "1 2 3"
      (Subtree.child (by simp [geoRecord]) (Subtree.refl _))
      (by decide) (by decide) (by decide)

end Ezid
